import Mathlib

/-!
Shallow embedding of the autodoc rust-core crate
(src/rust-core/src: entity.rs, parser.rs, lib.rs).

Strings are Lean `String`s; the textual heuristics of `entity.rs`
(`str::matches`, `str::contains`, the quoted-literal regex) are modelled as
recursive functions over `List Char` mirroring Rust's non-overlapping
left-to-right match semantics.
-/

namespace Autodoc

/-! ### Textual helpers (semantics of the Rust `str` operations used) -/

/-- Number of non-overlapping occurrences of `pat` in a character list,
scanning left to right; `str::matches(pat).count()` in Rust. -/
def countOccurrences (pat : List Char) : List Char → Nat
  | [] => 0
  | c :: rest =>
    if pat.isPrefixOf (c :: rest) && !pat.isEmpty then
      1 + countOccurrences pat (List.drop (pat.length - 1) rest)
    else
      countOccurrences pat rest
termination_by l => l.length
decreasing_by
  · simp only [List.length_drop, List.length_cons]; omega
  · simp only [List.length_cons]; omega

/-- Substring test; `str::contains(pat)` in Rust. -/
def containsSub (pat : List Char) : List Char → Bool
  | [] => pat.isEmpty
  | c :: rest => pat.isPrefixOf (c :: rest) || containsSub pat rest

/-- Rust `str::to_lowercase`, restricted to per-character lowering. -/
def toLowerStr (s : String) : String := ⟨s.data.map Char.toLower⟩

/-! ### `std::path::PathBuf` (only display is used by this crate) -/

/-- Model of `std::path::PathBuf`; the crate only ever converts it with
`to_string_lossy`, so a wrapped string suffices. -/
structure PathBuf where
  path : String
deriving DecidableEq, Repr

/-- Model of `Path::to_string_lossy().to_string()`. -/
def PathBuf.to_string_lossy (p : PathBuf) : String := p.path

/-! ### entity.rs : CodeEntity -/

/-- Structure `CodeEntity` from src/rust-core/src/entity.rs. `usize`/`u32` fields are
modelled as `Nat`. -/
structure CodeEntity where
  entity_type : String
  name : String
  file_path : PathBuf
  line_number : Nat
  docstring : Option String
  code : String
  is_async : Bool
  decorators : List String
  parameters : List String
  return_type : Option String
  is_internal : Bool
  is_api_endpoint : Bool
  endpoint_path : Option String
  http_methods : List String
  complexity_score : Nat
deriving DecidableEq, Repr

/-- Constructor `CodeEntity::new` from entity.rs. -/
def CodeEntity.new (entity_type name : String) (file_path : PathBuf)
    (line_number : Nat) : CodeEntity :=
  { entity_type := entity_type
    name := name
    file_path := file_path
    line_number := line_number
    docstring := none
    code := ""
    is_async := false
    decorators := []
    parameters := []
    return_type := none
    is_internal := false
    is_api_endpoint := false
    endpoint_path := none
    http_methods := []
    complexity_score := 1 }

/-- The fixed control-flow keyword list of `calculate_complexity`. -/
def control_flow : List String := ["if ", "for ", "while ", "match ", "loop "]

/-- Method `CodeEntity::calculate_complexity` from entity.rs: accumulator starting
at 1, adding the parameter count, the `'\x7b'` match count over `code`, the
match count of each control-flow keyword, and 2 for async. -/
def CodeEntity.calculate_complexity (e : CodeEntity) : CodeEntity :=
  let score := 1
  let score := score + e.parameters.length
  let score := score + countOccurrences ['\x7b'] e.code.data
  let score := control_flow.foldl
    (fun s kw => s + countOccurrences kw.data e.code.data) score
  let score := if e.is_async then score + 2 else score
  { e with complexity_score := score }

/-- The fixed decorator substrings of `detect_api_endpoint`. -/
def api_decorators : List String :=
  ["route", "get", "post", "put", "delete", "patch", "api"]

/-- A quote character of the regex character class in
`extract_path_from_decorator`. -/
def isQuoteChar (c : Char) : Bool := c == '"' || c == '\''

/-- Leftmost match of the regex `[quote]([^quote]+)[quote]` over a character
list, returning capture group 1: the first quote character followed by a
nonempty run of non-quote characters followed by another quote character. -/
def findQuoted : List Char → Option (List Char)
  | [] => none
  | c :: rest =>
    if isQuoteChar c then
      let run := rest.takeWhile (fun x => !isQuoteChar x)
      let rem := rest.dropWhile (fun x => !isQuoteChar x)
      if !run.isEmpty && !rem.isEmpty then some run else findQuoted rest
    else findQuoted rest

/-- Function `extract_path_from_decorator` from entity.rs. -/
def extract_path_from_decorator (decorator : String) : Option String :=
  (findQuoted decorator.data).map (fun l => ⟨l⟩)

/-- Method `CodeEntity::detect_api_endpoint` from entity.rs. -/
def CodeEntity.detect_api_endpoint (e : CodeEntity) : CodeEntity :=
  let is_api := e.decorators.any (fun d =>
    api_decorators.any (fun api_d => containsSub api_d.data (toLowerStr d).data))
  let e := { e with is_api_endpoint := is_api }
  if is_api then
    match e.decorators.findSome? extract_path_from_decorator with
    | some path => { e with endpoint_path := some path }
    | none => e
  else e

/-! ### parser.rs : the rustpython AST fragment the visitor consumes -/

/-- Model of `ast::Constant` (only the `Str` alternative is inspected by the crate). -/
inductive Constant where
  | str (s : String)
  | otherConst
deriving DecidableEq, Repr

/-- Model of `ast::Expr`, restricted to the alternatives `expr_to_string` and
`extract_docstring` distinguish; every remaining alternative is `otherExpr`. -/
inductive Expr where
  | name (id : String)
  | attribute (value : Expr) (attr : String)
  | call (func : Expr) (args : List Expr)
  | constant (value : Constant)
  | otherExpr

/-- A formal argument (`ast::Arg`; the annotation is never read). -/
structure Arg where
  arg : String
deriving DecidableEq, Repr

/-- Model of `ast::Arguments`: positional-only, keyword-or-positional, variadic,
keyword-only and keyword-variadic parameters. `extract_parameters` reads only
`args`, `vararg` and `kwarg`. -/
structure Arguments where
  posonlyargs : List Arg
  args : List Arg
  vararg : Option Arg
  kwonlyargs : List Arg
  kwarg : Option Arg
deriving DecidableEq, Repr

/-- Model of `ast::Stmt`, restricted to the alternatives `visit_stmt` distinguishes,
plus the expression statement inspected by `extract_docstring`; every other
statement kind is `otherStmt`. -/
inductive Stmt where
  | functionDef (name : String) (args : Arguments) (body : List Stmt)
      (decorator_list : List Expr) (returns : Option Expr)
  | asyncFunctionDef (name : String) (args : Arguments) (body : List Stmt)
      (decorator_list : List Expr) (returns : Option Expr)
  | classDef (name : String) (body : List Stmt) (decorator_list : List Expr)
  | exprStmt (value : Expr)
  | otherStmt

/-- Function `expr_to_string` from parser.rs: identifiers render as themselves,
attribute access as `base.attr`, calls as `callee(...)` with arguments
elided, everything else as the `...` placeholder. -/
def expr_to_string : Expr → String
  | .name id => id
  | .attribute value attr => expr_to_string value ++ "." ++ attr
  | .call func _ => expr_to_string func ++ "(...)"
  | .constant _ => "..."
  | .otherExpr => "..."

/-- Function `extract_docstring` from parser.rs: the first statement of the body, when
it is an expression statement holding a string constant. -/
def extract_docstring : List Stmt → Option String
  | .exprStmt (.constant (.str s)) :: _ => some s
  | _ => none

/-- Function `extract_parameters` from parser.rs: a vector built by pushes — the
keyword-or-positional names, then `*vararg`, then `**kwarg`. -/
def extract_parameters (args : Arguments) : List String :=
  let params : List String := []
  let params := args.args.foldl (fun ps a => ps ++ [a.arg]) params
  let params := match args.vararg with
    | some vararg => params ++ ["*" ++ vararg.arg]
    | none => params
  let params := match args.kwarg with
    | some kwarg => params ++ ["**" ++ kwarg.arg]
    | none => params
  params

/-- Common body of `EntityVisitor::visit_function` and
`EntityVisitor::visit_async_function` from parser.rs (the two differ only in
`is_async` and the `code` placeholder prefix). -/
def visit_function (fp : PathBuf) (ctx : List String) (isAsync : Bool)
    (name : String) (args : Arguments) (body : List Stmt)
    (decorator_list : List Expr) (returns : Option Expr) : CodeEntity :=
  let e := CodeEntity.new (if ctx.isEmpty then "function" else "method") name fp 1
  let e := { e with is_async := isAsync }
  let e := { e with docstring := extract_docstring body }
  let e := { e with decorators := decorator_list.map expr_to_string }
  let e := { e with parameters := extract_parameters args }
  let e := { e with return_type := returns.map expr_to_string }
  let e := { e with code :=
    (if isAsync then "async def " else "def ") ++ name ++ "(...): ..." }
  let e := e.detect_api_endpoint
  let e := e.calculate_complexity
  e

/-- The class record built by `EntityVisitor::visit_class` (before the
descent into the class body). -/
def class_entity (fp : PathBuf) (name : String) (body : List Stmt)
    (decorator_list : List Expr) : CodeEntity :=
  let e := CodeEntity.new "class" name fp 1
  let e := { e with docstring := extract_docstring body }
  let e := { e with decorators := decorator_list.map expr_to_string }
  e

mutual

/-- Method `EntityVisitor::visit_stmt` from parser.rs, as the list of entities the
visit appends: function and async-function definitions yield one entity,
class definitions yield the class record followed by the entities of the
body visited with the class name pushed on the context stack, every other
statement yields nothing. -/
def visit_stmt (fp : PathBuf) (ctx : List String) : Stmt → List CodeEntity
  | .functionDef name args body decs returns =>
      [visit_function fp ctx false name args body decs returns]
  | .asyncFunctionDef name args body decs returns =>
      [visit_function fp ctx true name args body decs returns]
  | .classDef name body decs =>
      class_entity fp name body decs :: visit_body fp (ctx ++ [name]) body
  | .exprStmt _ => []
  | .otherStmt => []

/-- The statement-by-statement visit loop over a body (the `for stmt in ...`
loops of `parse_source` and `visit_class`). -/
def visit_body (fp : PathBuf) (ctx : List String) : List Stmt → List CodeEntity
  | [] => []
  | s :: rest => visit_stmt fp ctx s ++ visit_body fp ctx rest

end

/-- Method `PythonParser::parse_source` from parser.rs, with the external
grammar-conformant parser (`ast::Suite::parse`) abstracted as a function
argument: on parser failure the error is wrapped and no entities are
produced; on success the visitor runs with an empty context stack. -/
def parse_source (parse : String → Except String (List Stmt))
    (source : String) (fp : PathBuf) : Except String (List CodeEntity) :=
  match parse source with
  | .error e => .error ("Parse error: " ++ e)
  | .ok ast => .ok (visit_body fp [] ast)

/-! ### lib.rs : the boundary type -/

/-- Structure `PyCodeEntity` from src/rust-core/src/lib.rs: the boundary/export
representation. -/
structure PyCodeEntity where
  entity_type : String
  name : String
  file_path : String
  line_number : Nat
  docstring : Option String
  code : String
  is_async : Bool
  decorators : List String
  parameters : List String
  return_type : Option String
deriving DecidableEq, Repr

/-- Conversion `impl From<CodeEntity> for PyCodeEntity` from lib.rs. -/
def PyCodeEntity.from_entity (entity : CodeEntity) : PyCodeEntity :=
  { entity_type := entity.entity_type
    name := entity.name
    file_path := entity.file_path.to_string_lossy
    line_number := entity.line_number
    docstring := entity.docstring
    code := entity.code
    is_async := entity.is_async
    decorators := entity.decorators
    parameters := entity.parameters
    return_type := entity.return_type }

/-! ### Helper lemmas -/

/-- Matching a one-character pattern counts exactly the occurrences of that
character. -/
theorem countOccurrences_singleton (c : Char) :
    ∀ l : List Char, countOccurrences [c] l = l.count c
  | [] => by simp [countOccurrences]
  | x :: rest => by
    rw [countOccurrences]
    by_cases h : c = x
    · subst h
      simp [List.isPrefixOf, countOccurrences_singleton c rest, List.count_cons]
      omega
    · have hx : (c == x) = false := by simp [h]
      simp [List.isPrefixOf, hx, countOccurrences_singleton c rest,
        List.count_cons, h]

/-- Pushing elements one by one onto an accumulator is `map`. -/
theorem foldl_push_map (l : List Arg) :
    ∀ acc : List String,
      l.foldl (fun ps a => ps ++ [a.arg]) acc = acc ++ l.map Arg.arg := by
  induction l with
  | nil => simp
  | cons a rest ih => intro acc; simp [ih]

/-- Detection computes its flag as the decorator scan of
entity.rs. -/
theorem detect_api_endpoint_is_api (e : CodeEntity) :
    (e.detect_api_endpoint).is_api_endpoint =
      e.decorators.any (fun d =>
        api_decorators.any (fun api_d =>
          containsSub api_d.data (toLowerStr d).data)) := by
  simp only [CodeEntity.detect_api_endpoint]
  split
  · split <;> rfl
  · rfl

/-- Detection touches only `is_api_endpoint` and
`endpoint_path`. -/
theorem detect_api_endpoint_preserves (e : CodeEntity) :
    (e.detect_api_endpoint).entity_type = e.entity_type ∧
    (e.detect_api_endpoint).name = e.name ∧
    (e.detect_api_endpoint).complexity_score = e.complexity_score ∧
    (e.detect_api_endpoint).decorators = e.decorators ∧
    (e.detect_api_endpoint).is_async = e.is_async ∧
    (e.detect_api_endpoint).parameters = e.parameters ∧
    (e.detect_api_endpoint).code = e.code ∧
    (e.detect_api_endpoint).docstring = e.docstring := by
  simp only [CodeEntity.detect_api_endpoint]
  split
  · split <;> exact ⟨rfl, rfl, rfl, rfl, rfl, rfl, rfl, rfl⟩
  · exact ⟨rfl, rfl, rfl, rfl, rfl, rfl, rfl, rfl⟩

/-- Scoring touches only `complexity_score`. -/
theorem calculate_complexity_preserves (e : CodeEntity) :
    (e.calculate_complexity).entity_type = e.entity_type ∧
    (e.calculate_complexity).name = e.name ∧
    (e.calculate_complexity).is_api_endpoint = e.is_api_endpoint ∧
    (e.calculate_complexity).endpoint_path = e.endpoint_path ∧
    (e.calculate_complexity).decorators = e.decorators ∧
    (e.calculate_complexity).docstring = e.docstring ∧
    (e.calculate_complexity).parameters = e.parameters ∧
    (e.calculate_complexity).is_async = e.is_async ∧
    (e.calculate_complexity).code = e.code :=
  ⟨rfl, rfl, rfl, rfl, rfl, rfl, rfl, rfl, rfl⟩

/-- The classification of a visited function entity is decided by whether
the class-context stack is empty. -/
theorem visit_function_entity_type (fp : PathBuf) (ctx : List String)
    (isA : Bool) (n : String) (a : Arguments) (b : List Stmt)
    (d : List Expr) (r : Option Expr) :
    (visit_function fp ctx isA n a b d r).entity_type =
      if ctx.isEmpty then "function" else "method" := by
  simp only [visit_function]
  rw [(calculate_complexity_preserves _).1, (detect_api_endpoint_preserves _).1]
  rfl

/-- Function or async-function definition statements. -/
def isDefStmt : Stmt → Bool
  | .functionDef .. => true
  | .asyncFunctionDef .. => true
  | _ => false

/-- Class definition statements. -/
def isClassStmt : Stmt → Bool
  | .classDef .. => true
  | _ => false

/-- The entity a (sync or async) function definition visit produces. -/
def def_entity (fp : PathBuf) (ctx : List String) : Stmt → CodeEntity
  | .functionDef n a b d r => visit_function fp ctx false n a b d r
  | .asyncFunctionDef n a b d r => visit_function fp ctx true n a b d r
  | _ => CodeEntity.new "" "" fp 0

/-- Visiting a body free of class definitions yields exactly one entity per
function or async-function definition, in declaration order. -/
theorem visit_body_no_class (fp : PathBuf) (ctx : List String) :
    ∀ body : List Stmt, (∀ s ∈ body, isClassStmt s = false) →
      visit_body fp ctx body = (body.filter isDefStmt).map (def_entity fp ctx)
  | [], _ => rfl
  | s :: rest, h => by
    have hr := visit_body_no_class fp ctx rest (fun x hx => h x (by simp [hx]))
    cases s with
    | classDef n b d =>
        have hc := h (Stmt.classDef n b d) (by simp)
        simp [isClassStmt] at hc
    | functionDef n a b d r =>
        simp [visit_body, visit_stmt, List.filter, isDefStmt, def_entity, hr]
    | asyncFunctionDef n a b d r =>
        simp [visit_body, visit_stmt, List.filter, isDefStmt, def_entity, hr]
    | exprStmt v =>
        simp [visit_body, visit_stmt, List.filter, isDefStmt, hr]
    | otherStmt =>
        simp [visit_body, visit_stmt, List.filter, isDefStmt, hr]

/-- A string free of quote characters, as every identifier of a
syntactically valid Python source is. -/
def ids_ok_string (s : String) : Bool := s.data.all (fun c => !isQuoteChar c)

/-- All identifiers `expr_to_string` would render for this expression are
quote-free. -/
def expr_ids_ok : Expr → Bool
  | .name id => ids_ok_string id
  | .attribute value attr => expr_ids_ok value && ids_ok_string attr
  | .call func _ => expr_ids_ok func
  | .constant _ => true
  | .otherExpr => true

mutual

/-- All decorator identifiers the visitor can reach below this statement
are quote-free. -/
def stmt_ids_ok : Stmt → Bool
  | .functionDef _ _ _ decs _ => decs.all expr_ids_ok
  | .asyncFunctionDef _ _ _ decs _ => decs.all expr_ids_ok
  | .classDef _ body decs => decs.all expr_ids_ok && stmts_ids_ok body
  | .exprStmt _ => true
  | .otherStmt => true

/-- Predicate `stmt_ids_ok` over a statement list. -/
def stmts_ids_ok : List Stmt → Bool
  | [] => true
  | s :: rest => stmt_ids_ok s && stmts_ids_ok rest

end

/-- Every entity the visitor emits is either a class record or a visited
function record; when the decorator identifiers below the visited
statements are quote-free (`ok`), so are the function record's decorator
expressions. -/
def EntityShape (fp : PathBuf) (ok : Bool) (e : CodeEntity) : Prop :=
  (∃ n body decs, e = class_entity fp n body decs) ∨
  (∃ ctx isA n args body decs returns,
    e = visit_function fp ctx isA n args body decs returns ∧
    (ok = true → decs.all expr_ids_ok = true))

/-- Weakening the quote-free assumption of `EntityShape`. -/
theorem EntityShape.mono {fp : PathBuf} {b b2 : Bool} {e : CodeEntity}
    (h : b = true → b2 = true) :
    EntityShape fp b2 e → EntityShape fp b e := by
  rintro (hc | ⟨ctx, isA, n, args, body, decs, returns, rfl, himp⟩)
  · exact Or.inl hc
  · exact Or.inr ⟨ctx, isA, n, args, body, decs, returns, rfl,
      fun hb => himp (h hb)⟩

mutual

/-- Shape of every entity a single statement visit emits. -/
theorem visit_stmt_mem : ∀ (s : Stmt) (fp : PathBuf) (ctx : List String)
    (e : CodeEntity),
    e ∈ visit_stmt fp ctx s → EntityShape fp (stmt_ids_ok s) e
  | .functionDef n a b d r, fp, ctx, e, he => by
    simp only [visit_stmt, List.mem_singleton] at he
    exact Or.inr ⟨ctx, false, n, a, b, d, r, he,
      fun h => by simpa [stmt_ids_ok] using h⟩
  | .asyncFunctionDef n a b d r, fp, ctx, e, he => by
    simp only [visit_stmt, List.mem_singleton] at he
    exact Or.inr ⟨ctx, true, n, a, b, d, r, he,
      fun h => by simpa [stmt_ids_ok] using h⟩
  | .classDef n body decs, fp, ctx, e, he => by
    simp only [visit_stmt, List.mem_cons] at he
    rcases he with rfl | he
    · exact Or.inl ⟨n, body, decs, rfl⟩
    · exact EntityShape.mono
        (fun h => by simp [stmt_ids_ok] at h; exact h.2)
        (visit_body_mem body fp (ctx ++ [n]) e he)
  | .exprStmt v, _, _, e, he => by simp [visit_stmt] at he
  | .otherStmt, _, _, e, he => by simp [visit_stmt] at he

/-- Shape of every entity a body visit emits. -/
theorem visit_body_mem : ∀ (l : List Stmt) (fp : PathBuf)
    (ctx : List String) (e : CodeEntity),
    e ∈ visit_body fp ctx l → EntityShape fp (stmts_ids_ok l) e
  | [], _, _, e, he => by simp [visit_body] at he
  | s :: rest, fp, ctx, e, he => by
    simp only [visit_body, List.mem_append] at he
    rcases he with he | he
    · exact EntityShape.mono
        (fun h => by simp [stmts_ids_ok] at h; exact h.1)
        (visit_stmt_mem s fp ctx e he)
    · exact EntityShape.mono
        (fun h => by simp [stmts_ids_ok] at h; exact h.2)
        (visit_body_mem rest fp ctx e he)

end

/-- When detection concludes the entity is no endpoint, a previously unset
path stays unset. -/
theorem detect_not_api_path (e : CodeEntity) (h : e.endpoint_path = none) :
    (e.detect_api_endpoint).is_api_endpoint = false →
    (e.detect_api_endpoint).endpoint_path = none := by
  rw [detect_api_endpoint_is_api]
  intro hapi
  simp only [CodeEntity.detect_api_endpoint]
  rw [hapi]
  simp [h]

/-- Detection leaves the path untouched when no decorator yields a quoted
literal. -/
theorem detect_endpoint_path_unchanged (e : CodeEntity)
    (h : e.decorators.findSome? extract_path_from_decorator = none) :
    (e.detect_api_endpoint).endpoint_path = e.endpoint_path := by
  simp only [CodeEntity.detect_api_endpoint]
  split
  · rw [h]
  · rfl

/-! ### Claim theorems -/

/-- C3: `calculate_complexity` sets `complexity_score` to exactly 1, plus
the number of parameters, plus the number of opening-brace characters in
`code`, plus the number of non-overlapping occurrences of each control-flow
keyword (with trailing space) in `code`, plus 2 when `is_async`. -/
theorem calculate_complexity_formula (e : CodeEntity) :
    (e.calculate_complexity).complexity_score =
      1 + e.parameters.length + e.code.data.count '\x7b'
        + countOccurrences "if ".data e.code.data
        + countOccurrences "for ".data e.code.data
        + countOccurrences "while ".data e.code.data
        + countOccurrences "match ".data e.code.data
        + countOccurrences "loop ".data e.code.data
        + (if e.is_async then 2 else 0) := by
  simp only [CodeEntity.calculate_complexity, control_flow, List.foldl_cons,
    List.foldl_nil, countOccurrences_singleton]
  split <;> omega

/-- C5: parameter extraction is the ordered concatenation of the
keyword-or-positional names, the starred variadic name if declared, and the
double-starred keyword-variadic name if declared; in particular
`(a, *args, **kwargs)` yields `["a", "*args", "**kwargs"]`. -/
theorem extract_parameters_spec (args : Arguments) :
    extract_parameters args =
      args.args.map Arg.arg
        ++ (args.vararg.map (fun v => "*" ++ v.arg)).toList
        ++ (args.kwarg.map (fun k => "**" ++ k.arg)).toList ∧
    extract_parameters ⟨[], [⟨"a"⟩], some ⟨"args"⟩, [], some ⟨"kwargs"⟩⟩
      = ["a", "*args", "**kwargs"] := by
  refine ⟨?_, by decide⟩
  simp only [extract_parameters, foldl_push_map, List.nil_append]
  cases args.vararg <;> cases args.kwarg <;> simp [Option.toList]

/-- C6: the docstring is the text of the body's first statement exactly when
that first statement is an expression statement holding a bare string
constant; an empty body yields none. -/
theorem extract_docstring_spec :
    (∀ (body : List Stmt) (s : String),
        extract_docstring body = some s ↔
          body.head? = some (.exprStmt (.constant (.str s)))) ∧
    extract_docstring [] = none := by
  refine ⟨?_, rfl⟩
  intro body s
  constructor
  · intro h
    unfold extract_docstring at h
    split at h
    · cases h; rfl
    · exact absurd h (by simp)
  · intro h
    cases body with
    | nil => simp at h
    | cons a l =>
      simp only [List.head?, Option.some.injEq] at h
      subst h
      rfl

/-- A concrete entity whose enrichment fields are all populated. -/
def sample_entity_full : CodeEntity :=
  { CodeEntity.new "function" "f" ⟨"a.py"⟩ 1 with
      is_internal := true
      is_api_endpoint := true
      endpoint_path := some "/x"
      http_methods := ["GET"]
      complexity_score := 7 }

/-- C1 counterexample: the boundary conversion does not carry
`is_internal`, `is_api_endpoint`, `endpoint_path`, `http_methods` or
`complexity_score` across — two entities differing exactly in those fields
convert to the same `PyCodeEntity`, so no field of the converted value can
hold their (differing) values. -/
theorem py_conversion_drops_fields :
    PyCodeEntity.from_entity sample_entity_full
      = PyCodeEntity.from_entity (CodeEntity.new "function" "f" ⟨"a.py"⟩ 1) ∧
    sample_entity_full ≠ CodeEntity.new "function" "f" ⟨"a.py"⟩ 1 ∧
    sample_entity_full.is_api_endpoint
      ≠ (CodeEntity.new "function" "f" ⟨"a.py"⟩ 1).is_api_endpoint ∧
    sample_entity_full.complexity_score
      ≠ (CodeEntity.new "function" "f" ⟨"a.py"⟩ 1).complexity_score := by
  exact ⟨rfl, by decide, by decide, by decide⟩

/-- C1 (amended): the conversion to `PyCodeEntity` preserves the ten
exported fields, downgrading `file_path` to its display string, and is
invariant under the five remaining fields (`is_internal`,
`is_api_endpoint`, `endpoint_path`, `http_methods`, `complexity_score`),
which have no counterpart in the boundary type and are dropped. -/
theorem py_conversion_spec :
    (∀ e : CodeEntity,
      (PyCodeEntity.from_entity e).entity_type = e.entity_type ∧
      (PyCodeEntity.from_entity e).name = e.name ∧
      (PyCodeEntity.from_entity e).file_path = e.file_path.to_string_lossy ∧
      (PyCodeEntity.from_entity e).line_number = e.line_number ∧
      (PyCodeEntity.from_entity e).docstring = e.docstring ∧
      (PyCodeEntity.from_entity e).code = e.code ∧
      (PyCodeEntity.from_entity e).is_async = e.is_async ∧
      (PyCodeEntity.from_entity e).decorators = e.decorators ∧
      (PyCodeEntity.from_entity e).parameters = e.parameters ∧
      (PyCodeEntity.from_entity e).return_type = e.return_type) ∧
    (∀ (e : CodeEntity) (b1 b2 : Bool) (p : Option String)
        (hm : List String) (cs : Nat),
      PyCodeEntity.from_entity
        { e with is_internal := b1, is_api_endpoint := b2,
                 endpoint_path := p, http_methods := hm,
                 complexity_score := cs }
        = PyCodeEntity.from_entity e) := by
  exact ⟨fun e => ⟨rfl, rfl, rfl, rfl, rfl, rfl, rfl, rfl, rfl, rfl⟩,
    fun e b1 b2 p hm cs => rfl⟩

/-- C4: `detect_api_endpoint` flags an entity exactly when some decorator,
lower-cased, contains one of the fixed API substrings; when flagged, the
endpoint path becomes the first quoted literal found scanning the decorators
in order (stopping at the first decorator yielding one), and stays unset
when no decorator yields one; when not flagged the path stays unset. -/
theorem detect_api_endpoint_spec (e : CodeEntity)
    (h : e.endpoint_path = none) :
    ((e.detect_api_endpoint).is_api_endpoint = true ↔
      ∃ d ∈ e.decorators, ∃ a ∈ api_decorators,
        containsSub a.data (toLowerStr d).data = true) ∧
    ((e.detect_api_endpoint).is_api_endpoint = true →
      (e.detect_api_endpoint).endpoint_path
        = e.decorators.findSome? extract_path_from_decorator) ∧
    ((e.detect_api_endpoint).is_api_endpoint = false →
      (e.detect_api_endpoint).endpoint_path = none) ∧
    (∀ (l : List String) (p : String),
      l.findSome? extract_path_from_decorator = some p ↔
      ∃ pre d post, l = pre ++ d :: post ∧
        (∀ x ∈ pre, extract_path_from_decorator x = none) ∧
        extract_path_from_decorator d = some p) := by
  refine ⟨?_, ?_, ?_, ?_⟩
  · rw [detect_api_endpoint_is_api]
    simp [List.any_eq_true]
  · rw [detect_api_endpoint_is_api]
    intro hapi
    simp only [CodeEntity.detect_api_endpoint]
    rw [hapi]
    simp only [if_true]
    split
    · next path heq => simp [heq]
    · next heq => simp [heq, h]
  · rw [detect_api_endpoint_is_api]
    intro hapi
    simp only [CodeEntity.detect_api_endpoint]
    rw [hapi]
    simp [h]
  · intro l p
    rw [List.findSome?_eq_some_iff]
    constructor
    · rintro ⟨pre, d, post, rfl, hd, hpre⟩
      exact ⟨pre, d, post, rfl, hpre, hd⟩
    · rintro ⟨pre, d, post, rfl, hpre, hd⟩
      exact ⟨pre, d, post, rfl, hd, hpre⟩

/-- A concrete freshly-parsed entity carrying a route decorator. -/
def sample_route_entity : CodeEntity :=
  { CodeEntity.new "function" "get_users" ⟨"api.py"⟩ 20 with
      decorators := ["app.route(\"/api/users\")"] }

/-- Witness for C4 at a concrete entity: the hypothesis (no path yet) holds
by `rfl`, and the detection result evaluates concretely. -/
theorem detect_api_endpoint_spec_witness :
    sample_route_entity.endpoint_path = none ∧
    ((sample_route_entity.detect_api_endpoint).is_api_endpoint = true →
      (sample_route_entity.detect_api_endpoint).endpoint_path
        = sample_route_entity.decorators.findSome?
            extract_path_from_decorator) ∧
    (sample_route_entity.detect_api_endpoint).is_api_endpoint = true ∧
    (sample_route_entity.detect_api_endpoint).endpoint_path
      = some "/api/users" := by
  refine ⟨rfl, (detect_api_endpoint_spec sample_route_entity rfl).2.1,
    by decide, by decide⟩

/-- C9: `parse_source` propagates a failure of the underlying grammar parser
as a single wrapped parse error carrying no entities, and on any
syntactically valid source returns `ok` with the visitor output — the
visitor itself is a total function. -/
theorem parse_source_error_spec :
    (∀ (parse : String → Except String (List Stmt)) (source : String)
        (fp : PathBuf) (err : String),
      parse source = .error err →
      parse_source parse source fp = .error ("Parse error: " ++ err)) ∧
    (∀ (parse : String → Except String (List Stmt)) (source : String)
        (fp : PathBuf) (ast : List Stmt),
      parse source = .ok ast →
      parse_source parse source fp = .ok (visit_body fp [] ast)) := by
  constructor <;> intro parse source fp x h <;> simp [parse_source, h]

/-- Witness for C9 at concrete parser outcomes: a failing parse yields the
wrapped error, a succeeding parse yields the visitor output. -/
theorem parse_source_error_spec_witness :
    parse_source (fun _ => .error "invalid syntax") "def f(" ⟨"t.py"⟩
      = .error ("Parse error: " ++ "invalid syntax") ∧
    parse_source (fun _ => .ok [Stmt.otherStmt]) "pass" ⟨"t.py"⟩
      = .ok (visit_body ⟨"t.py"⟩ [] [Stmt.otherStmt]) :=
  ⟨parse_source_error_spec.1 (fun _ => .error "invalid syntax") "def f("
      ⟨"t.py"⟩ "invalid syntax" rfl,
    parse_source_error_spec.2 (fun _ => .ok [Stmt.otherStmt]) "pass"
      ⟨"t.py"⟩ [Stmt.otherStmt] rfl⟩

/-- Visiting a body distributes over concatenation. -/
theorem visit_body_append (fp : PathBuf) (ctx : List String) :
    ∀ a b : List Stmt,
      visit_body fp ctx (a ++ b) = visit_body fp ctx a ++ visit_body fp ctx b
  | [], b => rfl
  | s :: rest, b => by
    simp [visit_body, visit_body_append fp ctx rest b]

/-- C2: for a source containing a top-level class whose body holds no nested
classes, `parse_source` emits — right after the entities of the statements
preceding it — the class entity followed by exactly one entity per direct
(sync or async) method definition of the class, in declaration order; every
one of those is classified "method", and, in general, a visited function
entity is a "method" exactly when the class-context stack is nonempty. -/
theorem class_visit_spec (parse : String → Except String (List Stmt))
    (source : String) (fp : PathBuf) (cls : String) (body : List Stmt)
    (decs : List Expr) (pre post : List Stmt)
    (h1 : parse source = .ok (pre ++ Stmt.classDef cls body decs :: post))
    (h2 : ∀ s ∈ body, isClassStmt s = false) :
    parse_source parse source fp =
      .ok (visit_body fp [] pre ++
        (class_entity fp cls body decs ::
          (body.filter isDefStmt).map (def_entity fp [cls])) ++
        visit_body fp [] post) ∧
    (class_entity fp cls body decs ::
        (body.filter isDefStmt).map (def_entity fp [cls])).length
      = 1 + body.countP isDefStmt ∧
    (class_entity fp cls body decs).entity_type = "class" ∧
    (∀ e ∈ (body.filter isDefStmt).map (def_entity fp [cls]),
      e.entity_type = "method") ∧
    (∀ (ctx : List String) (isA : Bool) (n : String) (a : Arguments)
        (b : List Stmt) (d : List Expr) (r : Option Expr),
      (visit_function fp ctx isA n a b d r).entity_type = "method"
        ↔ ctx ≠ []) := by
  refine ⟨?_, ?_, rfl, ?_, ?_⟩
  · simp only [parse_source, h1, visit_body_append, visit_body, visit_stmt,
      List.append_nil, List.nil_append]
    simp [visit_body_no_class fp [cls] body h2]
  · simp [List.countP_eq_length_filter]
    omega
  · intro e he
    obtain ⟨s, hs, rfl⟩ := List.mem_map.1 he
    have hdef : isDefStmt s = true := (List.mem_filter.1 hs).2
    cases s with
    | functionDef n a b d r => simp [def_entity, visit_function_entity_type]
    | asyncFunctionDef n a b d r =>
        simp [def_entity, visit_function_entity_type]
    | classDef n b d => simp [isDefStmt] at hdef
    | exprStmt v => simp [isDefStmt] at hdef
    | otherStmt => simp [isDefStmt] at hdef
  · intro ctx isA n a b d r
    rw [visit_function_entity_type]
    cases ctx with
    | nil => simp
    | cons x xs => simp

/-- The body of a concrete sample class: a docstring statement followed by
one method definition. -/
def sample_class_body : List Stmt :=
  [Stmt.exprStmt (Expr.constant (Constant.str "A sample class.")),
   Stmt.functionDef "method" ⟨[], [⟨"self"⟩], none, [], none⟩
     [Stmt.otherStmt] [] none]

/-- A parser outcome producing just the sample class. -/
def sample_class_parse : String → Except String (List Stmt) :=
  fun _ => .ok [Stmt.classDef "MyClass" sample_class_body []]

/-- Witness for C2 at the sample class: both hypotheses hold concretely and
the output is the class entity followed by its one method entity. -/
theorem class_visit_spec_witness :
    parse_source sample_class_parse "class MyClass: ..." ⟨"t.py"⟩ =
      .ok (class_entity ⟨"t.py"⟩ "MyClass" sample_class_body [] ::
        (sample_class_body.filter isDefStmt).map
          (def_entity ⟨"t.py"⟩ ["MyClass"])) ∧
    (class_entity ⟨"t.py"⟩ "MyClass" sample_class_body [] ::
        (sample_class_body.filter isDefStmt).map
          (def_entity ⟨"t.py"⟩ ["MyClass"])).length
      = 1 + sample_class_body.countP isDefStmt :=
  have h := class_visit_spec sample_class_parse "class MyClass: ..."
    ⟨"t.py"⟩ "MyClass" sample_class_body [] [] [] rfl (by decide)
  ⟨h.1, h.2.1⟩

/-- C7: the complexity score is at least 1 at construction, stays at least 1
through `calculate_complexity`, is untouched by `detect_api_endpoint`, and
every entity `parse_source` produces satisfies it. -/
theorem complexity_score_ge_one :
    (∀ (et n : String) (fp : PathBuf) (ln : Nat),
      1 ≤ (CodeEntity.new et n fp ln).complexity_score) ∧
    (∀ e : CodeEntity, 1 ≤ (e.calculate_complexity).complexity_score) ∧
    (∀ e : CodeEntity,
      (e.detect_api_endpoint).complexity_score = e.complexity_score) ∧
    (∀ (parse : String → Except String (List Stmt)) (source : String)
        (fp : PathBuf) (ents : List CodeEntity),
      parse_source parse source fp = .ok ents →
      ∀ e ∈ ents, 1 ≤ e.complexity_score) := by
  refine ⟨fun et n fp ln => le_refl 1, ?_, ?_, ?_⟩
  · intro e
    rw [calculate_complexity_formula]
    omega
  · exact fun e => (detect_api_endpoint_preserves e).2.2.1
  · intro parse source fp ents h e he
    cases hp : parse source with
    | error err => simp [parse_source, hp] at h
    | ok ast =>
      simp only [parse_source, hp, Except.ok.injEq] at h
      rw [← h] at he
      rcases visit_body_mem ast fp [] e he with
        ⟨n, body, decs, rfl⟩ | ⟨ctx, isA, n, args, body, decs, returns, rfl, _⟩
      · exact le_refl 1
      · simp only [visit_function]
        rw [calculate_complexity_formula]
        omega

/-- Witness for C7 at concrete inputs: a fresh entity and an entity emitted
by `parse_source` for a one-class source. -/
theorem complexity_score_ge_one_witness :
    1 ≤ (CodeEntity.new "function" "f" ⟨"a.py"⟩ 1).complexity_score ∧
    1 ≤ (class_entity ⟨"t.py"⟩ "C" [] []).complexity_score :=
  ⟨complexity_score_ge_one.1 "function" "f" ⟨"a.py"⟩ 1,
    complexity_score_ge_one.2.2.2 (fun _ => .ok [Stmt.classDef "C" [] []])
      "class C: ..." ⟨"t.py"⟩
      (visit_body ⟨"t.py"⟩ [] [Stmt.classDef "C" [] []]) rfl
      (class_entity ⟨"t.py"⟩ "C" [] []) (by decide)⟩

/-- C8: construction leaves the endpoint pair unset, `calculate_complexity`
does not touch it, detection keeps a previously unset path unset whenever it
concludes the entity is not an endpoint, and every entity `parse_source`
produces satisfies the pairing invariant. -/
theorem endpoint_pairing_spec :
    (∀ (et n : String) (fp : PathBuf) (ln : Nat),
      (CodeEntity.new et n fp ln).is_api_endpoint = false ∧
      (CodeEntity.new et n fp ln).endpoint_path = none) ∧
    (∀ e : CodeEntity,
      (e.calculate_complexity).is_api_endpoint = e.is_api_endpoint ∧
      (e.calculate_complexity).endpoint_path = e.endpoint_path) ∧
    (∀ e : CodeEntity, e.endpoint_path = none →
      (e.detect_api_endpoint).is_api_endpoint = false →
      (e.detect_api_endpoint).endpoint_path = none) ∧
    (∀ (parse : String → Except String (List Stmt)) (source : String)
        (fp : PathBuf) (ents : List CodeEntity),
      parse_source parse source fp = .ok ents →
      ∀ e ∈ ents, e.is_api_endpoint = false → e.endpoint_path = none) := by
  refine ⟨fun et n fp ln => ⟨rfl, rfl⟩,
    fun e => ⟨(calculate_complexity_preserves e).2.2.1,
      (calculate_complexity_preserves e).2.2.2.1⟩,
    detect_not_api_path, ?_⟩
  intro parse source fp ents h e he
  cases hp : parse source with
  | error err => simp [parse_source, hp] at h
  | ok ast =>
    simp only [parse_source, hp, Except.ok.injEq] at h
    rw [← h] at he
    rcases visit_body_mem ast fp [] e he with
      ⟨n, body, decs, rfl⟩ | ⟨ctx, isA, n, args, body, decs, returns, rfl, _⟩
    · exact fun _ => rfl
    · simp only [visit_function]
      rw [(calculate_complexity_preserves _).2.2.1,
        (calculate_complexity_preserves _).2.2.2.1]
      exact detect_not_api_path _ rfl

/-- Witness for C8 at concrete inputs: detection on a fresh undecorated
entity, and an entity emitted by `parse_source` for a one-class source. -/
theorem endpoint_pairing_spec_witness :
    ((CodeEntity.new "function" "g" ⟨"b.py"⟩ 2).detect_api_endpoint).endpoint_path
      = none ∧
    (class_entity ⟨"t.py"⟩ "C" [] []).endpoint_path = none :=
  ⟨endpoint_pairing_spec.2.2.1 (CodeEntity.new "function" "g" ⟨"b.py"⟩ 2)
      rfl rfl,
    endpoint_pairing_spec.2.2.2 (fun _ => .ok [Stmt.classDef "C" [] []])
      "class C: ..." ⟨"t.py"⟩
      (visit_body ⟨"t.py"⟩ [] [Stmt.classDef "C" [] []]) rfl
      (class_entity ⟨"t.py"⟩ "C" [] []) (by decide) rfl⟩

/-- Stringification renders only identifier characters, dots, parentheses
and the placeholder dots: with quote-free identifiers the result holds no
quote character. -/
theorem expr_to_string_no_quote : ∀ ex : Expr, expr_ids_ok ex = true →
    ∀ c ∈ (expr_to_string ex).data, isQuoteChar c = false
  | .name id, h, c, hc => by
    simp only [expr_to_string] at hc
    simp only [expr_ids_ok, ids_ok_string, List.all_eq_true] at h
    simpa using h c hc
  | .attribute v attr, h, c, hc => by
    simp only [expr_to_string] at hc
    rw [String.data_append, String.data_append] at hc
    simp only [List.mem_append] at hc
    simp only [expr_ids_ok, Bool.and_eq_true] at h
    rcases hc with (hc | hc) | hc
    · exact expr_to_string_no_quote v h.1 c hc
    · simp at hc
      subst hc
      rfl
    · have h2 := h.2
      simp only [ids_ok_string, List.all_eq_true] at h2
      simpa using h2 c hc
  | .call f args, h, c, hc => by
    simp only [expr_to_string] at hc
    rw [String.data_append] at hc
    simp only [List.mem_append] at hc
    rcases hc with hc | hc
    · exact expr_to_string_no_quote f (by simpa [expr_ids_ok] using h) c hc
    · simp at hc
      rcases hc with rfl | rfl | rfl
      · rfl
      · rfl
      · rfl
  | .constant v, _, c, hc => by
    simp only [expr_to_string] at hc
    simp at hc
    subst hc
    rfl
  | .otherExpr, _, c, hc => by
    simp only [expr_to_string] at hc
    simp at hc
    subst hc
    rfl

/-- The quoted-literal scan finds nothing in a quote-free text. -/
theorem findQuoted_none : ∀ l : List Char,
    (∀ c ∈ l, isQuoteChar c = false) → findQuoted l = none
  | [], _ => rfl
  | c :: rest, h => by
    rw [findQuoted]
    rw [h c (by simp)]
    simp only [if_false]
    exact findQuoted_none rest (fun x hx => h x (by simp [hx]))

/-- No path can be extracted from a decorator rendered from quote-free
identifiers. -/
theorem extract_path_rendered_none (ex : Expr) (h : expr_ids_ok ex = true) :
    extract_path_from_decorator (expr_to_string ex) = none := by
  unfold extract_path_from_decorator
  rw [findQuoted_none _ (expr_to_string_no_quote ex h)]
  rfl

/-- C10: for a syntactically valid source — whose identifiers therefore
hold no quote characters — every entity `parse_source` produces has an
unset `endpoint_path`, since stringified decorators can never contain a
quoted literal for the path extractor to find. -/
theorem endpoint_path_always_none
    (parse : String → Except String (List Stmt)) (source : String)
    (fp : PathBuf) (ast : List Stmt) (ents : List CodeEntity)
    (h1 : parse source = .ok ast) (h2 : stmts_ids_ok ast = true)
    (h3 : parse_source parse source fp = .ok ents) :
    ∀ e ∈ ents, e.endpoint_path = none := by
  intro e he
  simp only [parse_source, h1, Except.ok.injEq] at h3
  rw [← h3] at he
  rcases visit_body_mem ast fp [] e he with
    ⟨n, body, decs, rfl⟩ | ⟨ctx, isA, n, args, body, decs, returns, rfl, hok⟩
  · rfl
  · have hdecs := hok h2
    simp only [List.all_eq_true] at hdecs
    simp only [visit_function]
    rw [(calculate_complexity_preserves _).2.2.2.1]
    rw [detect_endpoint_path_unchanged]
    · rfl
    · rw [List.findSome?_eq_none_iff]
      intro d hd
      obtain ⟨ex, hex, rfl⟩ := List.mem_map.1 hd
      exact extract_path_rendered_none ex (hdecs ex hex)

/-- The statement of a concrete decorated function: `@app.route("/api/users")`
over `def get_users()`, as the parser would deliver it. -/
def sample_decorated_def : Stmt :=
  Stmt.functionDef "get_users" ⟨[], [], none, [], none⟩ []
    [Expr.call (Expr.attribute (Expr.name "app") "route")
      [Expr.constant (Constant.str "/api/users")]] none

/-- Witness for C10 at a concrete source: one decorated function whose
decorator renders without quotes, so its entity keeps no endpoint path. -/
theorem endpoint_path_always_none_witness :
    (visit_function ⟨"t.py"⟩ [] false "get_users" ⟨[], [], none, [], none⟩ []
      [Expr.call (Expr.attribute (Expr.name "app") "route")
        [Expr.constant (Constant.str "/api/users")]] none).endpoint_path
      = none :=
  endpoint_path_always_none (fun _ => .ok [sample_decorated_def])
    "@app.route(...)\ndef get_users(): ..." ⟨"t.py"⟩ [sample_decorated_def]
    (visit_body ⟨"t.py"⟩ [] [sample_decorated_def]) rfl (by decide) rfl
    (visit_function ⟨"t.py"⟩ [] false "get_users" ⟨[], [], none, [], none⟩ []
      [Expr.call (Expr.attribute (Expr.name "app") "route")
        [Expr.constant (Constant.str "/api/users")]] none)
    (by simp [sample_decorated_def, visit_body, visit_stmt])

end Autodoc
